import Mathlib

/-!
Verification development for `src/MNER/models/modeling_unimo.py`.

The file embeds, shallowly, the parts of the model relevant to the
shared-attention mechanism (`ShareKey`), the attention-regularization
bookkeeping (`AttentionReg`), the dual-stream encoder (`UnimoEncoder`),
the model head dispatch (`UnimoModel.forward`), and the two helper
functions `get_head_mask` and `get_extended_attention_mask`.

Modelling conventions:
  * tensors are total functions on `Fin`-indexed coordinates with exact
    rational entries (`ℚ`); the real-valued regularization loss, which
    needs a square root, is modelled over `ℝ`;
  * `view` / `reshape` / `transpose` are index re-associations, made
    explicit through `fmix` / `fdiv` / `fmod` (row-major layout);
  * the two irrational float constants `head_dim ** -0.5` (CLIP) and
    `math.sqrt(attention_head_size)` (BERT) are carried as abstract
    scalar parameters of the attention modules, since no claim depends
    on their numeric value;
  * per-layer parameter lists (`ShareKey.key` etc.) are total functions
    on layer indices (in the code, indexing past the end of the list is
    a runtime error that no modelled execution reaches);
  * softmax, dropout, layer norm and the feed-forward blocks, which the
    claims never inspect, are abstract function fields of the layer
    modules.
-/

/-- Row-major pairing of two indices, as used by `Tensor.view`:
the flat index of `(i, j)` in an `m × n` block is `i * n + j`. -/
def fmix {m n : ℕ} (i : Fin m) (j : Fin n) : Fin (m * n) :=
  ⟨i.1 * n + j.1, by
    have hj := j.2
    have hi : i.1 + 1 ≤ m := i.2
    calc i.1 * n + j.1 < i.1 * n + n := by omega
    _ = (i.1 + 1) * n := by ring
    _ ≤ m * n := Nat.mul_le_mul_right n hi⟩

/-- First (major) component of a flat row-major index. -/
def fdiv {m n : ℕ} (k : Fin (m * n)) : Fin m :=
  ⟨k.1 / n, by
    have hk := k.2
    have hmn : 0 < m * n := Nat.lt_of_le_of_lt (Nat.zero_le _) hk
    have hn : 0 < n := Nat.pos_of_ne_zero (fun h0 => by
      rw [h0, Nat.mul_zero] at hmn
      exact Nat.lt_irrefl 0 hmn)
    exact (Nat.div_lt_iff_lt_mul hn).mpr hk⟩

/-- Second (minor) component of a flat row-major index. -/
def fmod {m n : ℕ} (k : Fin (m * n)) : Fin n :=
  ⟨k.1 % n, by
    have hk := k.2
    have hmn : 0 < m * n := Nat.lt_of_le_of_lt (Nat.zero_le _) hk
    have hn : 0 < n := Nat.pos_of_ne_zero (fun h0 => by
      rw [h0, Nat.mul_zero] at hmn
      exact Nat.lt_irrefl 0 hmn)
    exact Nat.mod_lt _ hn⟩

/-- `START_SHARE_LAYER = 9  # share from layer 9`. -/
def START_SHARE_LAYER : ℕ := 9

/-- The `modality` argument of `ShareKey.cal_attention`
(the code asserts `modality in ['text', 'vision']`). -/
inductive Modality where
  | text : Modality
  | vision : Modality

/-- Maximal sequence length of a modality: `v_max_l` for vision,
`t_max_l` for text. -/
def Modality.maxLen : Modality → ℕ → ℕ → ℕ
  | .vision, v, _ => v
  | .text, _, t => t

/-- The numeric class state of `ShareKey`: per layer, a shared key of
shape `[1, num_heads, head_dim, 1]`, a vision bias of shape
`[num_heads, v_max_l, v_max_l]` and a text bias of shape
`[num_heads, t_max_l, t_max_l]`.  (The batch-norm lists `text_bn` /
`vision_bn` are selected but never applied in `cal_attention`, so they
are not part of the model.) -/
structure ShareKeyState (H D VL TL : ℕ) where
  key : ℕ → Fin 1 → Fin H → Fin D → Fin 1 → ℚ
  vision_bias : ℕ → Fin H → Fin VL → Fin VL → ℚ
  text_bias : ℕ → Fin H → Fin TL → Fin TL → ℚ

/-- `bias = cls.vision_bias[layer] if modality == 'vision' else cls.text_bias[layer]`. -/
def ShareKeyState.bias_of {H D VL TL : ℕ} (sk : ShareKeyState H D VL TL) (layer : ℕ) :
    (m : Modality) → Fin H → Fin (m.maxLen VL TL) → Fin (m.maxLen VL TL) → ℚ
  | .vision => sk.vision_bias layer
  | .text => sk.text_bias layer

/-- Core of `ShareKey.cal_attention` after the query has been viewed as
`[bsz, num_heads, length, head_dim]`:
`attn_weights = torch.matmul(query_states, cls.key[layer])` (shape
`[bsz, num_heads, length, 1]`, with the key broadcast over the batch),
then `.expand(bsz, num_heads, length, length)`, then `+ bias.unsqueeze(0)`. -/
def ShareKey.cal_attention_core {B H D L : ℕ}
    (key : Fin 1 → Fin H → Fin D → Fin 1 → ℚ)
    (bias : Fin H → Fin L → Fin L → ℚ)
    (q4 : Fin B → Fin H → Fin L → Fin D → ℚ) :
    Fin B → Fin H → Fin L → Fin L → ℚ :=
  let attn1 : Fin B → Fin H → Fin L → Fin 1 → ℚ :=
    fun b h i o => ∑ d : Fin D, q4 b h i d * key 0 h d o
  let expanded : Fin B → Fin H → Fin L → Fin L → ℚ :=
    fun b h i _ => attn1 b h i 0
  fun b h i j => expanded b h i j + bias h i j

/-- `ShareKey.cal_attention` with `shape == 3`: the query
`[bsz*num_heads, length, head_dim]` is viewed as
`[bsz, num_heads, length, head_dim]`, the core is applied, and the
result is reshaped back to `[bsz*num_heads, length, length]`. -/
def ShareKey.cal_attention {B H D VL TL : ℕ} (sk : ShareKeyState H D VL TL)
    (layer : ℕ) (m : Modality)
    (query_states : Fin (B * H) → Fin (m.maxLen VL TL) → Fin D → ℚ) :
    Fin (B * H) → Fin (m.maxLen VL TL) → Fin (m.maxLen VL TL) → ℚ :=
  let q4 : Fin B → Fin H → Fin (m.maxLen VL TL) → Fin D → ℚ :=
    fun b h i d => query_states (fmix b h) i d
  let w4 := ShareKey.cal_attention_core (sk.key layer) (sk.bias_of layer m) q4
  fun bh i j => w4 (fdiv bh) (fmod bh) i j

/-- `ShareKey.cal_attention` with `shape == 4`: the query
`[bsz, num_heads, length, head_dim]` is first reshaped to
`[bsz*num_heads, length, head_dim]`, then viewed back to four
dimensions, and the 4-D result is returned. -/
def ShareKey.cal_attention4 {B H D VL TL : ℕ} (sk : ShareKeyState H D VL TL)
    (layer : ℕ) (m : Modality)
    (query_states : Fin B → Fin H → Fin (m.maxLen VL TL) → Fin D → ℚ) :
    Fin B → Fin H → Fin (m.maxLen VL TL) → Fin (m.maxLen VL TL) → ℚ :=
  let q3 : Fin (B * H) → Fin (m.maxLen VL TL) → Fin D → ℚ :=
    fun bh i d => query_states (fdiv bh) (fmod bh) i d
  let q4 : Fin B → Fin H → Fin (m.maxLen VL TL) → Fin D → ℚ :=
    fun b h i d => q3 (fmix b h) i d
  ShareKey.cal_attention_core (sk.key layer) (sk.bias_of layer m) q4

/-- `nn.Linear`: `y = x Wᵀ + b`, applied position-wise to a
`[batch, length, in_features]` tensor. -/
def linearMap {B L I O : ℕ} (W : Fin O → Fin I → ℚ) (bv : Fin O → ℚ)
    (x : Fin B → Fin L → Fin I → ℚ) : Fin B → Fin L → Fin O → ℚ :=
  fun b t o => (∑ i : Fin I, x b t i * W o i) + bv o

/-- `CLIPAttention._shape` followed by `.view(bsz * num_heads, -1, head_dim)`:
`[bsz, length, embed_dim]` to `[bsz*num_heads, length, head_dim]`. -/
def shape3 {B L H D : ℕ} (x : Fin B → Fin L → Fin (H * D) → ℚ) :
    Fin (B * H) → Fin L → Fin D → ℚ :=
  fun bh t d => x (fdiv bh) t (fmix (fmod bh) d)

/-- `BertSelfAttention.transpose_for_scores`:
`[bsz, length, all_head_size]` to `[bsz, num_heads, length, head_dim]`. -/
def transpose_for_scores {B L H D : ℕ} (x : Fin B → Fin L → Fin (H * D) → ℚ) :
    Fin B → Fin H → Fin L → Fin D → ℚ :=
  fun b h t d => x b t (fmix h d)

/-- Learned parameters of `CLIPAttention` that the claims touch:
the `q_proj` / `k_proj` linear layers and the scalar
`self.scale = self.head_dim ** -0.5` (kept abstract, see module note). -/
structure CLIPAttnParams (H D : ℕ) where
  q_proj_w : Fin (H * D) → Fin (H * D) → ℚ
  q_proj_b : Fin (H * D) → ℚ
  k_proj_w : Fin (H * D) → Fin (H * D) → ℚ
  k_proj_b : Fin (H * D) → ℚ
  scale : ℚ

/-- `query_states = self.q_proj(hidden_states) * self.scale`, shaped to
`[bsz*num_heads, length, head_dim]`. -/
def CLIPAttention.query_states {B L H D : ℕ} (p : CLIPAttnParams H D)
    (hidden : Fin B → Fin L → Fin (H * D) → ℚ) :
    Fin (B * H) → Fin L → Fin D → ℚ :=
  shape3 (fun b t e => linearMap p.q_proj_w p.q_proj_b hidden b t e * p.scale)

/-- `key_states = self._shape(self.k_proj(hidden_states), -1, bsz)`, shaped to
`[bsz*num_heads, length, head_dim]` (only computed on the unshared branch). -/
def CLIPAttention.key_states {B L H D : ℕ} (p : CLIPAttnParams H D)
    (hidden : Fin B → Fin L → Fin (H * D) → ℚ) :
    Fin (B * H) → Fin L → Fin D → ℚ :=
  shape3 (linearMap p.k_proj_w p.k_proj_b hidden)

/-- Raw attention weights of `CLIPAttention.forward`:
for `layer < START_SHARE_LAYER` the ordinary
`torch.bmm(query_states, key_states.transpose(1, 2))`, otherwise
`ShareKey.cal_attention(query_states, layer, 'vision', shape=3)`. -/
def CLIPAttention.attnWeights {B H D VL TL : ℕ} (p : CLIPAttnParams H D)
    (sk : ShareKeyState H D VL TL) (layer : ℕ)
    (hidden : Fin B → Fin VL → Fin (H * D) → ℚ) :
    Fin (B * H) → Fin VL → Fin VL → ℚ :=
  if layer < START_SHARE_LAYER then
    fun bh i j => ∑ d : Fin D,
      CLIPAttention.query_states p hidden bh i d *
        CLIPAttention.key_states p hidden bh j d
  else
    ShareKey.cal_attention sk layer .vision (CLIPAttention.query_states p hidden)

/-- The raw-score stage of `CLIPAttention.forward` together with its
effect on `AttentionReg.attention_vision_list`: on the shared branch the
computed weights are appended, otherwise the list is left alone. -/
def CLIPAttention.attnStage {B H D VL TL : ℕ} (p : CLIPAttnParams H D)
    (sk : ShareKeyState H D VL TL) (layer : ℕ)
    (hidden : Fin B → Fin VL → Fin (H * D) → ℚ)
    (regV : List (Fin (B * H) → Fin VL → Fin VL → ℚ)) :
    (Fin (B * H) → Fin VL → Fin VL → ℚ) ×
      List (Fin (B * H) → Fin VL → Fin VL → ℚ) :=
  let w := CLIPAttention.attnWeights p sk layer hidden
  (w, if layer < START_SHARE_LAYER then regV else regV ++ [w])

/-- Learned parameters of `BertSelfAttention` that the claims touch:
the `query` / `key` linear layers and the scalar
`math.sqrt(self.attention_head_size)` (kept abstract, see module note). -/
structure BertAttnParams (H D : ℕ) where
  query_w : Fin (H * D) → Fin (H * D) → ℚ
  query_b : Fin (H * D) → ℚ
  key_w : Fin (H * D) → Fin (H * D) → ℚ
  key_b : Fin (H * D) → ℚ
  sqrt_head : ℚ

/-- `query_layer = self.transpose_for_scores(self.query(hidden_states))`. -/
def BertSelfAttention.query_layer {B L H D : ℕ} (p : BertAttnParams H D)
    (hidden : Fin B → Fin L → Fin (H * D) → ℚ) :
    Fin B → Fin H → Fin L → Fin D → ℚ :=
  transpose_for_scores (linearMap p.query_w p.query_b hidden)

/-- `key_layer = self.transpose_for_scores(self.key(hidden_states))`
(only computed on the unshared branch). -/
def BertSelfAttention.key_layer {B L H D : ℕ} (p : BertAttnParams H D)
    (hidden : Fin B → Fin L → Fin (H * D) → ℚ) :
    Fin B → Fin H → Fin L → Fin D → ℚ :=
  transpose_for_scores (linearMap p.key_w p.key_b hidden)

/-- Raw attention scores of `BertSelfAttention.forward`:
for `layer < START_SHARE_LAYER` the ordinary
`torch.matmul(query_layer, key_layer.transpose(-1, -2))`, otherwise
`ShareKey.cal_attention(query_layer, layer, 'text', shape=4)`. -/
def BertSelfAttention.rawScores {B H D VL TL : ℕ} (p : BertAttnParams H D)
    (sk : ShareKeyState H D VL TL) (layer : ℕ)
    (hidden : Fin B → Fin TL → Fin (H * D) → ℚ) :
    Fin B → Fin H → Fin TL → Fin TL → ℚ :=
  if layer < START_SHARE_LAYER then
    fun b h i j => ∑ d : Fin D,
      BertSelfAttention.query_layer p hidden b h i d *
        BertSelfAttention.key_layer p hidden b h j d
  else
    ShareKey.cal_attention4 sk layer .text (BertSelfAttention.query_layer p hidden)

/-- `attention_scores = attention_scores / math.sqrt(self.attention_head_size)`
followed by the optional `+ attention_mask` (the mask produced by
`UnimoModel.forward` broadcasts along the last axis). -/
def BertSelfAttention.attnScores {B H D VL TL : ℕ} (p : BertAttnParams H D)
    (sk : ShareKeyState H D VL TL) (layer : ℕ)
    (hidden : Fin B → Fin TL → Fin (H * D) → ℚ)
    (mask : Option (Fin B → Fin TL → ℚ)) :
    Fin B → Fin H → Fin TL → Fin TL → ℚ :=
  let scaled : Fin B → Fin H → Fin TL → Fin TL → ℚ :=
    fun b h i j => BertSelfAttention.rawScores p sk layer hidden b h i j / p.sqrt_head
  match mask with
  | none => scaled
  | some mm => fun b h i j => scaled b h i j + mm b j

/-- The tensor appended to `AttentionReg.attention_text_list` on the
shared branch: under `BertSelfAttention.MODIFY` the scores are first
passed through `torch.where(attention_scores < -9000, 0, attention_scores)`. -/
def BertSelfAttention.regEntry {B H D VL TL : ℕ} (p : BertAttnParams H D)
    (sk : ShareKeyState H D VL TL) (MODIFY : Bool) (layer : ℕ)
    (hidden : Fin B → Fin TL → Fin (H * D) → ℚ)
    (mask : Option (Fin B → Fin TL → ℚ)) :
    Fin B → Fin H → Fin TL → Fin TL → ℚ :=
  let s := BertSelfAttention.attnScores p sk layer hidden mask
  if MODIFY then fun b h i j => if s b h i j < -9000 then 0 else s b h i j else s

/-- The score stage of `BertSelfAttention.forward` together with its
effect on `AttentionReg.attention_text_list`:
`if layer >= START_SHARE_LAYER: AttentionReg.attention_text_list.append(...)`. -/
def BertSelfAttention.attnStage {B H D VL TL : ℕ} (p : BertAttnParams H D)
    (sk : ShareKeyState H D VL TL) (MODIFY : Bool) (layer : ℕ)
    (hidden : Fin B → Fin TL → Fin (H * D) → ℚ)
    (mask : Option (Fin B → Fin TL → ℚ))
    (regT : List (Fin B → Fin H → Fin TL → Fin TL → ℚ)) :
    (Fin B → Fin H → Fin TL → Fin TL → ℚ) ×
      List (Fin B → Fin H → Fin TL → Fin TL → ℚ) :=
  (BertSelfAttention.attnScores p sk layer hidden mask,
   if START_SHARE_LAYER ≤ layer then
     regT ++ [BertSelfAttention.regEntry p sk MODIFY layer hidden mask]
   else regT)

/-- The triple of class variables of `ShareKey` that
`AttentionReg.change_ShareKey` exchanges. -/
structure ShareKeyVars (K TB VB : Type) where
  key : K
  text_bias : TB
  vision_bias : VB

/-- The class state of `AttentionReg` (field order follows the source):
`old_model`, `old_key`, `old_text_bias`, `old_vision_bias`,
`attention_text_list`, `attention_vision_list`. -/
structure AttentionRegState (M K TB VB RV RT : Type) where
  old_model : M
  old_key : K
  old_text_bias : TB
  old_vision_bias : VB
  attention_text_list : List RT
  attention_vision_list : List RV

/-- `AttentionReg.change_ShareKey`: swap `ShareKey.(key, text_bias,
vision_bias)` with `AttentionReg.(old_key, old_text_bias, old_vision_bias)`. -/
def AttentionReg.change_ShareKey {M K TB VB RV RT : Type}
    (sk : ShareKeyVars K TB VB) (reg : AttentionRegState M K TB VB RV RT) :
    ShareKeyVars K TB VB × AttentionRegState M K TB VB RV RT :=
  (⟨reg.old_key, reg.old_text_bias, reg.old_vision_bias⟩,
   { reg with
      old_key := sk.key
      old_text_bias := sk.text_bias
      old_vision_bias := sk.vision_bias })

/-- `AttentionReg.clear_attention_list`: reset both attention lists. -/
def AttentionReg.clear_attention_list {M K TB VB RV RT : Type}
    (reg : AttentionRegState M K TB VB RV RT) :
    AttentionRegState M K TB VB RV RT :=
  { reg with attention_vision_list := [], attention_text_list := [] }

/-- A `CLIPEncoderLayer` module.  `layer_norm1` and everything after the
raw attention scores (softmax, dropout, value path, `out_proj`,
residuals, `layer_norm2`, MLP) are abstract functions; `post` receives
the layer input (for the residual / value path) and the raw scores. -/
structure CLIPEncoderLayerM (B H D VL TL : ℕ) where
  layer_norm1 : (Fin B → Fin VL → Fin (H * D) → ℚ) →
    Fin B → Fin VL → Fin (H * D) → ℚ
  attn : CLIPAttnParams H D
  post : (Fin B → Fin VL → Fin (H * D) → ℚ) →
    (Fin (B * H) → Fin VL → Fin VL → ℚ) →
    Fin B → Fin VL → Fin (H * D) → ℚ

/-- One `CLIPEncoderLayer.forward`, threading the
`AttentionReg.attention_vision_list` side effect of its attention. -/
def CLIPEncoderLayerM.forward {B H D VL TL : ℕ} {M K TB VB : Type}
    (m : CLIPEncoderLayerM B H D VL TL) (sk : ShareKeyState H D VL TL)
    (layer : ℕ) (v : Fin B → Fin VL → Fin (H * D) → ℚ)
    (reg : AttentionRegState M K TB VB
      (Fin (B * H) → Fin VL → Fin VL → ℚ)
      (Fin B → Fin H → Fin TL → Fin TL → ℚ)) :
    (Fin B → Fin VL → Fin (H * D) → ℚ) ×
      AttentionRegState M K TB VB
        (Fin (B * H) → Fin VL → Fin VL → ℚ)
        (Fin B → Fin H → Fin TL → Fin TL → ℚ) :=
  let pr := CLIPAttention.attnStage m.attn sk layer (m.layer_norm1 v)
    reg.attention_vision_list
  (m.post v pr.1, { reg with attention_vision_list := pr.2 })

/-- The hidden-state transformation of one `CLIPEncoderLayer.forward`,
which does not depend on the `AttentionReg` lists. -/
def CLIPEncoderLayerM.hiddenStep {B H D VL TL : ℕ}
    (m : CLIPEncoderLayerM B H D VL TL) (sk : ShareKeyState H D VL TL)
    (layer : ℕ) (v : Fin B → Fin VL → Fin (H * D) → ℚ) :
    Fin B → Fin VL → Fin (H * D) → ℚ :=
  m.post v (CLIPAttention.attnWeights m.attn sk layer (m.layer_norm1 v))

/-- A `BertLayer` module: the self-attention parameters plus an abstract
`post` for softmax, dropout, the value path, `BertSelfOutput`,
`BertIntermediate` and `BertOutput`. -/
structure BertLayerM (B H D VL TL : ℕ) where
  attn : BertAttnParams H D
  post : (Fin B → Fin TL → Fin (H * D) → ℚ) →
    (Fin B → Fin H → Fin TL → Fin TL → ℚ) →
    Fin B → Fin TL → Fin (H * D) → ℚ

/-- One `BertLayer.forward`, threading the
`AttentionReg.attention_text_list` side effect of its self-attention. -/
def BertLayerM.forward {B H D VL TL : ℕ} {M K TB VB : Type}
    (m : BertLayerM B H D VL TL) (sk : ShareKeyState H D VL TL)
    (MODIFY : Bool) (layer : ℕ) (t : Fin B → Fin TL → Fin (H * D) → ℚ)
    (mask : Option (Fin B → Fin TL → ℚ))
    (reg : AttentionRegState M K TB VB
      (Fin (B * H) → Fin VL → Fin VL → ℚ)
      (Fin B → Fin H → Fin TL → Fin TL → ℚ)) :
    (Fin B → Fin TL → Fin (H * D) → ℚ) ×
      AttentionRegState M K TB VB
        (Fin (B * H) → Fin VL → Fin VL → ℚ)
        (Fin B → Fin H → Fin TL → Fin TL → ℚ) :=
  let pr := BertSelfAttention.attnStage m.attn sk MODIFY layer t mask
    reg.attention_text_list
  (m.post t pr.1, { reg with attention_text_list := pr.2 })

/-- The hidden-state transformation of one `BertLayer.forward`. -/
def BertLayerM.hiddenStep {B H D VL TL : ℕ}
    (m : BertLayerM B H D VL TL) (sk : ShareKeyState H D VL TL)
    (MODIFY : Bool) (layer : ℕ) (t : Fin B → Fin TL → Fin (H * D) → ℚ)
    (mask : Option (Fin B → Fin TL → ℚ)) :
    Fin B → Fin TL → Fin (H * D) → ℚ :=
  m.post t (BertSelfAttention.attnScores m.attn sk layer t mask)

/-- An execution trace event of `UnimoEncoder.forward`: application of a
vision layer or of a text layer with a given index. -/
inductive LayerEvent where
  | vision (idx : ℕ) : LayerEvent
  | text (idx : ℕ) : LayerEvent

/-- The loop state of `UnimoEncoder.forward`: the two hidden-state
streams, the `AttentionReg` class state, and the instrumentation trace
of layer applications. -/
structure EncLoopState (B H D VL TL : ℕ) (M K TB VB : Type) where
  vision_hidden_states : Fin B → Fin VL → Fin (H * D) → ℚ
  text_hidden_states : Fin B → Fin TL → Fin (H * D) → ℚ
  reg : AttentionRegState M K TB VB
    (Fin (B * H) → Fin VL → Fin VL → ℚ)
    (Fin B → Fin H → Fin TL → Fin TL → ℚ)
  trace : List LayerEvent

/-- The `UnimoEncoder` module: the two configured layer counts and the
two `nn.ModuleList`s of layers. -/
structure UnimoEncoderM (B H D VL TL : ℕ) where
  vision_num_layers : ℕ
  text_num_layers : ℕ
  vision_layers : ℕ → CLIPEncoderLayerM B H D VL TL
  text_layer : ℕ → BertLayerM B H D VL TL

/-- One iteration of the loop in `UnimoEncoder.forward`: vision layer
`idx` first, then text layer `idx`, each on its own stream. -/
def UnimoEncoder.step {B H D VL TL : ℕ} {M K TB VB : Type}
    (enc : UnimoEncoderM B H D VL TL) (sk : ShareKeyState H D VL TL)
    (MODIFY : Bool) (mask : Option (Fin B → Fin TL → ℚ))
    (st : EncLoopState B H D VL TL M K TB VB) (idx : ℕ) :
    EncLoopState B H D VL TL M K TB VB :=
  let pv := (enc.vision_layers idx).forward sk idx st.vision_hidden_states st.reg
  let pt := (enc.text_layer idx).forward sk MODIFY idx st.text_hidden_states mask pv.2
  ⟨pv.1, pt.1, pt.2, st.trace ++ [LayerEvent.vision idx, LayerEvent.text idx]⟩

/-- The loop `for idx in range(k)` of `UnimoEncoder.forward`, starting
from the two embeddings, the initial `AttentionReg` state and an empty
trace. -/
def UnimoEncoder.loop {B H D VL TL : ℕ} {M K TB VB : Type}
    (enc : UnimoEncoderM B H D VL TL) (sk : ShareKeyState H D VL TL)
    (MODIFY : Bool) (mask : Option (Fin B → Fin TL → ℚ))
    (vision_embeds : Fin B → Fin VL → Fin (H * D) → ℚ)
    (text_embeds : Fin B → Fin TL → Fin (H * D) → ℚ)
    (reg : AttentionRegState M K TB VB
      (Fin (B * H) → Fin VL → Fin VL → ℚ)
      (Fin B → Fin H → Fin TL → Fin TL → ℚ))
    (k : ℕ) : EncLoopState B H D VL TL M K TB VB :=
  (List.range k).foldl (UnimoEncoder.step enc sk MODIFY mask)
    ⟨vision_embeds, text_embeds, reg, []⟩

/-- `UnimoEncoder.forward`: asserts that the two configs have the same
`num_hidden_layers` (`none` models the assertion failure), then runs the
strictly alternating layer loop and returns
`(text_hidden_states, vision_hidden_states)` together with the final
`AttentionReg` state and the instrumentation trace. -/
def UnimoEncoder.forward {B H D VL TL : ℕ} {M K TB VB : Type}
    (enc : UnimoEncoderM B H D VL TL) (sk : ShareKeyState H D VL TL)
    (MODIFY : Bool) (mask : Option (Fin B → Fin TL → ℚ))
    (vision_embeds : Fin B → Fin VL → Fin (H * D) → ℚ)
    (text_embeds : Fin B → Fin TL → Fin (H * D) → ℚ)
    (reg : AttentionRegState M K TB VB
      (Fin (B * H) → Fin VL → Fin VL → ℚ)
      (Fin B → Fin H → Fin TL → Fin TL → ℚ)) :
    Option ((Fin B → Fin TL → Fin (H * D) → ℚ) ×
      (Fin B → Fin VL → Fin (H * D) → ℚ) ×
      AttentionRegState M K TB VB
        (Fin (B * H) → Fin VL → Fin VL → ℚ)
        (Fin B → Fin H → Fin TL → Fin TL → ℚ) ×
      List LayerEvent) :=
  if enc.vision_num_layers = enc.text_num_layers then
    let final := UnimoEncoder.loop enc sk MODIFY mask vision_embeds
      text_embeds reg enc.vision_num_layers
    some (final.text_hidden_states, final.vision_hidden_states,
      final.reg, final.trace)
  else
    none

/-- The vision stream after `k` layers: each vision layer feeds the next
vision layer. -/
def UnimoEncoder.visionStateAt {B H D VL TL : ℕ}
    (enc : UnimoEncoderM B H D VL TL) (sk : ShareKeyState H D VL TL)
    (v0 : Fin B → Fin VL → Fin (H * D) → ℚ) (k : ℕ) :
    Fin B → Fin VL → Fin (H * D) → ℚ :=
  (List.range k).foldl (fun v i => (enc.vision_layers i).hiddenStep sk i v) v0

/-- The text stream after `k` layers: each text layer feeds the next
text layer. -/
def UnimoEncoder.textStateAt {B H D VL TL : ℕ}
    (enc : UnimoEncoderM B H D VL TL) (sk : ShareKeyState H D VL TL)
    (MODIFY : Bool) (mask : Option (Fin B → Fin TL → ℚ))
    (t0 : Fin B → Fin TL → Fin (H * D) → ℚ) (k : ℕ) :
    Fin B → Fin TL → Fin (H * D) → ℚ :=
  (List.range k).foldl
    (fun t i => (enc.text_layer i).hiddenStep sk MODIFY i t mask) t0

/-- The tensor that vision layer `i` appends to
`AttentionReg.attention_vision_list` when `i` is a shared layer. -/
def UnimoEncoder.visionEntryAt {B H D VL TL : ℕ}
    (enc : UnimoEncoderM B H D VL TL) (sk : ShareKeyState H D VL TL)
    (v0 : Fin B → Fin VL → Fin (H * D) → ℚ) (i : ℕ) :
    Fin (B * H) → Fin VL → Fin VL → ℚ :=
  CLIPAttention.attnWeights (enc.vision_layers i).attn sk i
    ((enc.vision_layers i).layer_norm1 (UnimoEncoder.visionStateAt enc sk v0 i))

/-- The tensor that text layer `i` appends to
`AttentionReg.attention_text_list` when `i` is a shared layer. -/
def UnimoEncoder.textEntryAt {B H D VL TL : ℕ}
    (enc : UnimoEncoderM B H D VL TL) (sk : ShareKeyState H D VL TL)
    (MODIFY : Bool) (mask : Option (Fin B → Fin TL → ℚ))
    (t0 : Fin B → Fin TL → Fin (H * D) → ℚ) (i : ℕ) :
    Fin B → Fin H → Fin TL → Fin TL → ℚ :=
  BertSelfAttention.regEntry (enc.text_layer i).attn sk MODIFY i
    (UnimoEncoder.textStateAt enc sk MODIFY mask t0 i) mask

/-- The strictly alternating application order of the encoder loop:
vision layer `i`, then text layer `i`, for `i = 0, ..., n-1`. -/
def UnimoEncoder.traceSpec (n : ℕ) : List LayerEvent :=
  (List.range n).flatMap (fun i => [LayerEvent.vision i, LayerEvent.text i])

/-- `torch.nn.ReLU` on a scalar. -/
def relu (x : ℝ) : ℝ := max x 0

/-- The `eps` of `F.normalize` (torch default `1e-12`). -/
noncomputable def normEps : ℝ := 1 / 10 ^ 12

/-- The `merge_type` argument of `AttentionReg.cal_loss` (`"height"` or
`"width"`; the tensors are square `[bs, max_len, max_len]` attention
maps, so both poolings have shape `[bs, max_len]` and the trailing
`.view(a.shape[0], -1)` is the identity). -/
inductive MergeType where
  | height : MergeType
  | width : MergeType

/-- `a.sum(dim=1)` for `"height"`, `a.sum(dim=2)` for `"width"`. -/
def poolAttention {bs n : ℕ} (merge : MergeType)
    (a : Fin bs → Fin n → Fin n → ℝ) : Fin bs → Fin n → ℝ :=
  match merge with
  | .height => fun b j => ∑ i : Fin n, a b i j
  | .width => fun b i => ∑ j : Fin n, a b i j

/-- `F.normalize(x, dim=1, p=2)`: each row `x[b, :]` is divided by
`max(norm2(x[b, :]), eps)`. -/
noncomputable def F.normalize {bs n : ℕ} (x : Fin bs → Fin n → ℝ) :
    Fin bs → Fin n → ℝ :=
  fun b j => x b j / max (Real.sqrt (∑ k : Fin n, x b k ^ 2)) normEps

/-- `torch.frobenius_norm` of a matrix. -/
noncomputable def frobenius_norm {bs n : ℕ} (y : Fin bs → Fin n → ℝ) : ℝ :=
  Real.sqrt (∑ b : Fin bs, ∑ j : Fin n, y b j ^ 2)

/-- One layer's contribution inside `AttentionReg.cal_loss`:
`torch.mean(torch.frobenius_norm(F.normalize(relu(a - b), dim=1, p=2))) / 100.0`
(the mean of a 0-dimensional tensor is itself, and
`distance_loss_weight = 1`). -/
noncomputable def layerLoss {bs n : ℕ} (merge : MergeType)
    (a b : Fin bs → Fin n → Fin n → ℝ) : ℝ :=
  frobenius_norm (F.normalize (fun x y =>
    relu (poolAttention merge a x y - poolAttention merge b x y))) / 100

/-- `AttentionReg.cal_loss`: sum over the zipped layer pairs of the
per-layer losses, divided by the number of layers (the code asserts the
two lists have equal length). -/
noncomputable def AttentionReg.cal_loss {bs n : ℕ}
    (old_attention_list attention_list : List (Fin bs → Fin n → Fin n → ℝ))
    (merge_type : MergeType) : ℝ :=
  (((old_attention_list.zip attention_list).map
      (fun p => layerLoss merge_type p.1 p.2)).sum) /
    (old_attention_list.length : ℝ)

/-- The value returned by `UnimoModel.forward`: the `'cat'` branch
returns the 3-tuple `(text_output, vision_seq_in_text, cat_logits)`
directly; the `'sep'` path would fall through to the 4-tuple return at
the end of the method. -/
inductive UnimoOutput (T V L C : Type) where
  | cat (text_output : T) (vision_seq_in_text : T) (cat_logits : C) :
      UnimoOutput T V L C
  | sep (text_output : T) (vision_output : V) (text_logits : L)
      (vision_logits : L) : UnimoOutput T V L C

/-- `mode = ['sep', 'cat'][1]`. -/
def UnimoModel.mode : String := ["sep", "cat"][1]

/-- `UnimoModel.fusion_module`: broadcast-add of the vision `[CLS]`
vector `vision_seq[:, 0, :].unsqueeze(1)` and the saved
`BertEmbeddings.embedding` position embeddings (shape
`[1, len1, hidden]`); the `text_seq` argument is unused by the code. -/
def UnimoModel.fusion_module {bs len1 vl2 E : ℕ}
    (embedding : Fin 1 → Fin len1 → Fin E → ℚ)
    (text_seq : Fin bs → Fin len1 → Fin E → ℚ)
    (vision_seq : Fin bs → Fin (vl2 + 1) → Fin E → ℚ) :
    Fin bs → Fin len1 → Fin E → ℚ :=
  fun b t e => vision_seq b 0 e + embedding 0 t e

/-- The branch dispatch at the end of `UnimoModel.forward`, abstracted
over the module's classifier and fusion functions (`Except.error` models
the `assert False` of an unknown mode). -/
def UnimoModel.forwardTail {T V L C : Type}
    (text_classifier : T → L) (vision_classifier : V → L)
    (fusion : T → V → T) (cat_cls : T → T → C)
    (text_output : T) (vision_output : V) :
    Except String (UnimoOutput T V L C) :=
  if UnimoModel.mode = "sep" then
    Except.ok (UnimoOutput.sep text_output vision_output
      (text_classifier text_output) (vision_classifier vision_output))
  else if UnimoModel.mode = "cat" then
    let vision_seq_in_text := fusion text_output vision_output
    Except.ok (UnimoOutput.cat text_output vision_seq_in_text
      (cat_cls vision_seq_in_text text_output))
  else
    Except.error "assert False"

/-- `get_head_mask`: the body overwrites the argument with
`[None] * num_hidden_layers` before returning it. -/
def get_head_mask {α : Type} (head_mask : Option α) (num_hidden_layers : ℕ)
    (is_attention_chunked : Bool) : List (Option α) :=
  List.replicate num_hidden_layers none

/-- A tensor viewed through its shape and its (integer) entries at
multi-indices, as needed by `get_extended_attention_mask` (the mask is
cast to `torch.long` before the affine transform, so entries are
integers). -/
structure STensor where
  shape : List ℕ
  entry : List ℕ → ℤ

/-- `Tensor.dim()`. -/
def STensor.dim (t : STensor) : ℕ := t.shape.length

/-- `(1.0 - extended_attention_mask) * -10000.0`, elementwise. -/
def maskAffine (t : STensor) : STensor :=
  { shape := t.shape, entry := fun idx => (1 - t.entry idx) * (-10000) }

/-- `get_extended_attention_mask`: a 3-dimensional mask becomes
`attention_mask[:, None, :, :]`, a 2-dimensional mask becomes
`attention_mask[:, None, None, :]`, anything else raises `ValueError`;
the affine transform is then applied to the unsqueezed tensor. -/
def get_extended_attention_mask (attention_mask : STensor) :
    Except String STensor :=
  if attention_mask.dim = 3 then
    Except.ok (maskAffine
      { shape := [attention_mask.shape.getD 0 0, 1,
          attention_mask.shape.getD 1 0, attention_mask.shape.getD 2 0],
        entry := fun idx =>
          match idx with
          | [b, _, i, j] => attention_mask.entry [b, i, j]
          | _ => 0 })
  else if attention_mask.dim = 2 then
    Except.ok (maskAffine
      { shape := [attention_mask.shape.getD 0 0, 1, 1,
          attention_mask.shape.getD 1 0],
        entry := fun idx =>
          match idx with
          | [b, _, _, j] => attention_mask.entry [b, j]
          | _ => 0 })
  else
    Except.error "Wrong shape for input_ids or attention_mask"

/-- Property: on a shared layer, both attention modules obtain their raw
scores from `ShareKey.cal_attention`, whose output is the query matched
against the shared `ShareKey.key[layer]` plus the modality-specific
bias. -/
def sharedAttnClaim {B B2 H D VL TL : ℕ} (l : ℕ)
    (p : CLIPAttnParams H D) (pb : BertAttnParams H D)
    (sk : ShareKeyState H D VL TL)
    (hV : Fin B → Fin VL → Fin (H * D) → ℚ)
    (hT : Fin B2 → Fin TL → Fin (H * D) → ℚ) : Prop :=
  CLIPAttention.attnWeights p sk l hV =
    ShareKey.cal_attention sk l .vision (CLIPAttention.query_states p hV) ∧
  BertSelfAttention.rawScores pb sk l hT =
    ShareKey.cal_attention4 sk l .text (BertSelfAttention.query_layer pb hT) ∧
  (∀ (q : Fin (B * H) → Fin VL → Fin D → ℚ) (bh : Fin (B * H)) (i j : Fin VL),
    ShareKey.cal_attention sk l .vision q bh i j =
      (∑ d : Fin D, q bh i d * sk.key l 0 (fmod bh) d 0) +
        sk.vision_bias l (fmod bh) i j) ∧
  (∀ (q : Fin B2 → Fin H → Fin TL → Fin D → ℚ) (b : Fin B2) (h : Fin H)
      (i j : Fin TL),
    ShareKey.cal_attention4 sk l .text q b h i j =
      (∑ d : Fin D, q b h i d * sk.key l 0 h d 0) + sk.text_bias l h i j)

/-- Property: on an unshared layer, both attention modules compute the
standard query-key dot product, independently of the `ShareKey` state,
and leave both `AttentionReg` attention lists untouched. -/
def unsharedAttnClaim {B B2 H D VL TL : ℕ} (l : ℕ)
    (p : CLIPAttnParams H D) (pb : BertAttnParams H D)
    (sk : ShareKeyState H D VL TL)
    (hV : Fin B → Fin VL → Fin (H * D) → ℚ)
    (hT : Fin B2 → Fin TL → Fin (H * D) → ℚ) : Prop :=
  CLIPAttention.attnWeights p sk l hV =
    (fun bh i j => ∑ d : Fin D,
      CLIPAttention.query_states p hV bh i d *
        CLIPAttention.key_states p hV bh j d) ∧
  BertSelfAttention.rawScores pb sk l hT =
    (fun b h i j => ∑ d : Fin D,
      BertSelfAttention.query_layer pb hT b h i d *
        BertSelfAttention.key_layer pb hT b h j d) ∧
  (∀ sk2 : ShareKeyState H D VL TL,
    CLIPAttention.attnWeights p sk l hV = CLIPAttention.attnWeights p sk2 l hV) ∧
  (∀ sk2 : ShareKeyState H D VL TL,
    BertSelfAttention.rawScores pb sk l hT =
      BertSelfAttention.rawScores pb sk2 l hT) ∧
  (∀ regV, (CLIPAttention.attnStage p sk l hV regV).2 = regV) ∧
  (∀ (MODIFY : Bool) mask regT,
    (BertSelfAttention.attnStage pb sk MODIFY l hT mask regT).2 = regT)

/-- Property: the encoder runs, its trace is the strict
vision-then-text alternation, and each stream is the fold of its own
layers over its own embedding. -/
def encoderAlternationClaim {B H D VL TL : ℕ} {M K TB VB : Type}
    (enc : UnimoEncoderM B H D VL TL) (sk : ShareKeyState H D VL TL)
    (MODIFY : Bool) (mask : Option (Fin B → Fin TL → ℚ))
    (v0 : Fin B → Fin VL → Fin (H * D) → ℚ)
    (t0 : Fin B → Fin TL → Fin (H * D) → ℚ)
    (reg : AttentionRegState M K TB VB
      (Fin (B * H) → Fin VL → Fin VL → ℚ)
      (Fin B → Fin H → Fin TL → Fin TL → ℚ)) : Prop :=
  ∃ regOut, UnimoEncoder.forward enc sk MODIFY mask v0 t0 reg =
    some (UnimoEncoder.textStateAt enc sk MODIFY mask t0 enc.vision_num_layers,
      UnimoEncoder.visionStateAt enc sk v0 enc.vision_num_layers,
      regOut,
      UnimoEncoder.traceSpec enc.vision_num_layers)

/-- Property: one encoder forward pass appends exactly the shared
layers' score tensors, in increasing layer order, to the two
`AttentionReg` lists, changes no other `AttentionReg` field, and
`clear_attention_list` resets exactly the two lists. -/
def encoderAppendClaim {B H D VL TL : ℕ} {M K TB VB : Type}
    (enc : UnimoEncoderM B H D VL TL) (sk : ShareKeyState H D VL TL)
    (MODIFY : Bool) (mask : Option (Fin B → Fin TL → ℚ))
    (v0 : Fin B → Fin VL → Fin (H * D) → ℚ)
    (t0 : Fin B → Fin TL → Fin (H * D) → ℚ)
    (reg : AttentionRegState M K TB VB
      (Fin (B * H) → Fin VL → Fin VL → ℚ)
      (Fin B → Fin H → Fin TL → Fin TL → ℚ)) : Prop :=
  (∃ tOut vOut regOut trace,
    UnimoEncoder.forward enc sk MODIFY mask v0 t0 reg =
      some (tOut, vOut, regOut, trace) ∧
    regOut.attention_vision_list = reg.attention_vision_list ++
      (List.range' START_SHARE_LAYER
          (enc.vision_num_layers - START_SHARE_LAYER)).map
        (UnimoEncoder.visionEntryAt enc sk v0) ∧
    regOut.attention_text_list = reg.attention_text_list ++
      (List.range' START_SHARE_LAYER
          (enc.vision_num_layers - START_SHARE_LAYER)).map
        (UnimoEncoder.textEntryAt enc sk MODIFY mask t0) ∧
    regOut.attention_vision_list.length =
      reg.attention_vision_list.length +
        (enc.vision_num_layers - START_SHARE_LAYER) ∧
    regOut.attention_text_list.length =
      reg.attention_text_list.length +
        (enc.vision_num_layers - START_SHARE_LAYER) ∧
    regOut.old_model = reg.old_model ∧
    regOut.old_key = reg.old_key ∧
    regOut.old_text_bias = reg.old_text_bias ∧
    regOut.old_vision_bias = reg.old_vision_bias) ∧
  (∀ r : AttentionRegState M K TB VB
      (Fin (B * H) → Fin VL → Fin VL → ℚ)
      (Fin B → Fin H → Fin TL → Fin TL → ℚ),
    (AttentionReg.clear_attention_list r).attention_vision_list = [] ∧
    (AttentionReg.clear_attention_list r).attention_text_list = [] ∧
    (AttentionReg.clear_attention_list r).old_model = r.old_model ∧
    (AttentionReg.clear_attention_list r).old_key = r.old_key ∧
    (AttentionReg.clear_attention_list r).old_text_bias = r.old_text_bias ∧
    (AttentionReg.clear_attention_list r).old_vision_bias = r.old_vision_bias)

/-- Property: `cal_loss` is nonnegative, and vanishes whenever for every
zipped layer pair the pooled old attention is pointwise at most the
pooled new attention (only positive drift is penalized). -/
def calLossClaim {bs n : ℕ}
    (old_attention_list attention_list : List (Fin bs → Fin n → Fin n → ℝ))
    (merge_type : MergeType) : Prop :=
  0 ≤ AttentionReg.cal_loss old_attention_list attention_list merge_type ∧
  ((∀ p ∈ old_attention_list.zip attention_list, ∀ b j,
      poolAttention merge_type p.1 b j ≤ poolAttention merge_type p.2 b j) →
    AttentionReg.cal_loss old_attention_list attention_list merge_type = 0)

/-- Property: `get_extended_attention_mask` errors exactly on masks
whose dimension is neither 2 nor 3; otherwise the result is a
4-dimensional tensor with a singleton heads axis in which mask value 1
maps to 0 and mask value 0 maps to -10000. -/
def extendedMaskClaim (m : STensor) : Prop :=
  ((∃ s, get_extended_attention_mask m = Except.error s) ↔
    (m.dim ≠ 2 ∧ m.dim ≠ 3)) ∧
  (∀ t, get_extended_attention_mask m = Except.ok t →
    t.shape.length = 4 ∧ t.shape.get? 1 = some 1 ∧
    (m.dim = 2 → ∀ b x y j : ℕ,
      (m.entry [b, j] = 1 → t.entry [b, x, y, j] = 0) ∧
      (m.entry [b, j] = 0 → t.entry [b, x, y, j] = -10000)) ∧
    (m.dim = 3 → ∀ b x i j : ℕ,
      (m.entry [b, i, j] = 1 → t.entry [b, x, i, j] = 0) ∧
      (m.entry [b, i, j] = 0 → t.entry [b, x, i, j] = -10000)))

/-- Concrete one-head, one-dimensional `ShareKey` state used to
instantiate the hypotheses of the claims on concrete input. -/
def skW : ShareKeyState 1 1 1 1 :=
  ⟨fun _ _ _ _ _ => 0, fun _ _ _ _ => 0, fun _ _ _ _ => 0⟩

/-- Concrete `CLIPAttention` parameters. -/
def clipPW : CLIPAttnParams 1 1 :=
  ⟨fun _ _ => 0, fun _ => 0, fun _ _ => 0, fun _ => 0, 1⟩

/-- Concrete `BertSelfAttention` parameters. -/
def bertPW : BertAttnParams 1 1 :=
  ⟨fun _ _ => 0, fun _ => 0, fun _ _ => 0, fun _ => 0, 1⟩

/-- Concrete vision hidden states. -/
def hVW : Fin 1 → Fin 1 → Fin (1 * 1) → ℚ := fun _ _ _ => 0

/-- Concrete text hidden states. -/
def hTW : Fin 1 → Fin 1 → Fin (1 * 1) → ℚ := fun _ _ _ => 0

/-- Concrete `CLIPEncoderLayer` module. -/
def clipLayerW : CLIPEncoderLayerM 1 1 1 1 1 :=
  ⟨fun v => v, clipPW, fun v _ => v⟩

/-- Concrete `BertLayer` module. -/
def bertLayerW : BertLayerM 1 1 1 1 1 := ⟨bertPW, fun t _ => t⟩

/-- Concrete 12-layer `UnimoEncoder` module. -/
def encW : UnimoEncoderM 1 1 1 1 1 :=
  ⟨12, 12, fun _ => clipLayerW, fun _ => bertLayerW⟩

/-- Concrete `AttentionReg` class state. -/
def regW : AttentionRegState Unit Unit Unit Unit
    (Fin (1 * 1) → Fin 1 → Fin 1 → ℚ)
    (Fin 1 → Fin 1 → Fin 1 → Fin 1 → ℚ) :=
  ⟨(), (), (), (), [], []⟩

/-- Concrete attention tensor for the loss claims. -/
def lossTensorW : Fin 1 → Fin 1 → Fin 1 → ℝ := fun _ _ _ => 0

theorem fdiv_fmix {m n : ℕ} (i : Fin m) (j : Fin n) : fdiv (fmix i j) = i := by
  apply Fin.ext
  show (i.1 * n + j.1) / n = i.1
  have hn : 0 < n := Nat.lt_of_le_of_lt (Nat.zero_le _) j.2
  rw [Nat.mul_comm, Nat.mul_add_div hn, Nat.div_eq_of_lt j.2, Nat.add_zero]

theorem fmod_fmix {m n : ℕ} (i : Fin m) (j : Fin n) : fmod (fmix i j) = j := by
  apply Fin.ext
  show (i.1 * n + j.1) % n = j.1
  rw [Nat.mul_comm, Nat.mul_add_mod, Nat.mod_eq_of_lt j.2]

theorem fmix_fdiv_fmod {m n : ℕ} (k : Fin (m * n)) : fmix (fdiv k) (fmod k) = k := by
  apply Fin.ext
  show k.1 / n * n + k.1 % n = k.1
  rw [Nat.mul_comm]
  exact Nat.div_add_mod k.1 n

/-- C2: for every query of shape `[bsz*num_heads, length, head_dim]`,
every layer and every modality, `ShareKey.cal_attention` returns
`W[b,h,i,j] = (sum_d query[b*H+h,i,d] * key[layer][0,h,d,0]) + bias_m[layer][h,i,j]`;
in particular the query contribution is constant along the key-position
axis `j`. -/
theorem shareKey_cal_attention_formula {B H D VL TL : ℕ}
    (sk : ShareKeyState H D VL TL) (layer : ℕ) (m : Modality)
    (query_states : Fin (B * H) → Fin (m.maxLen VL TL) → Fin D → ℚ)
    (b : Fin B) (h : Fin H) (i j : Fin (m.maxLen VL TL)) :
    ShareKey.cal_attention sk layer m query_states (fmix b h) i j =
      (∑ d : Fin D, query_states (fmix b h) i d * sk.key layer 0 h d 0) +
        sk.bias_of layer m h i j ∧
    ∀ j2 : Fin (m.maxLen VL TL),
      ShareKey.cal_attention sk layer m query_states (fmix b h) i j -
          sk.bias_of layer m h i j =
        ShareKey.cal_attention sk layer m query_states (fmix b h) i j2 -
          sk.bias_of layer m h i j2 := by
  have hbase : ∀ j3 : Fin (m.maxLen VL TL),
      ShareKey.cal_attention sk layer m query_states (fmix b h) i j3 =
        (∑ d : Fin D, query_states (fmix b h) i d * sk.key layer 0 h d 0) +
          sk.bias_of layer m h i j3 := by
    intro j3
    unfold ShareKey.cal_attention ShareKey.cal_attention_core
    simp only [fdiv_fmix, fmod_fmix]
  refine ⟨hbase j, ?_⟩
  intro j2
  rw [hbase j, hbase j2]
  ring

/-- C1: for every shared layer (index at least `START_SHARE_LAYER`),
both the vision attention and the text attention compute their raw
scores through `ShareKey.cal_attention`, matching the query against the
same shared per-layer key `ShareKey.key[layer]` and adding the
modality-specific bias (`vision_bias` for vision, `text_bias` for
text). -/
theorem shared_layers_use_shareKey {B B2 H D VL TL : ℕ} (l : ℕ)
    (hl : START_SHARE_LAYER ≤ l) (p : CLIPAttnParams H D)
    (pb : BertAttnParams H D) (sk : ShareKeyState H D VL TL)
    (hV : Fin B → Fin VL → Fin (H * D) → ℚ)
    (hT : Fin B2 → Fin TL → Fin (H * D) → ℚ) :
    sharedAttnClaim l p pb sk hV hT := by
  refine ⟨?_, ?_, ?_, ?_⟩
  · unfold CLIPAttention.attnWeights
    rw [if_neg (by omega)]
  · unfold BertSelfAttention.rawScores
    rw [if_neg (by omega)]
  · intro q bh i j
    unfold ShareKey.cal_attention ShareKey.cal_attention_core
    simp only [fmix_fdiv_fmod]
    rfl
  · intro q b h i j
    unfold ShareKey.cal_attention4 ShareKey.cal_attention_core
    simp only [fdiv_fmix, fmod_fmix]
    rfl

theorem shared_layers_use_shareKey_witness :
    START_SHARE_LAYER ≤ 9 ∧ sharedAttnClaim 9 clipPW bertPW skW hVW hTW :=
  ⟨by decide, shared_layers_use_shareKey 9 (by decide) clipPW bertPW skW hVW hTW⟩

/-- C5: for every layer index below `START_SHARE_LAYER`, both attention
modules compute the standard dot product of their own query and key
projections, read no `ShareKey` parameter, and append nothing to the
`AttentionReg` attention lists. -/
theorem unshared_layers_standard_attention {B B2 H D VL TL : ℕ} (l : ℕ)
    (hl : l < START_SHARE_LAYER) (p : CLIPAttnParams H D)
    (pb : BertAttnParams H D) (sk : ShareKeyState H D VL TL)
    (hV : Fin B → Fin VL → Fin (H * D) → ℚ)
    (hT : Fin B2 → Fin TL → Fin (H * D) → ℚ) :
    unsharedAttnClaim l p pb sk hV hT := by
  refine ⟨?_, ?_, ?_, ?_, ?_, ?_⟩
  · unfold CLIPAttention.attnWeights
    rw [if_pos hl]
  · unfold BertSelfAttention.rawScores
    rw [if_pos hl]
  · intro sk2
    unfold CLIPAttention.attnWeights
    rw [if_pos hl, if_pos hl]
  · intro sk2
    unfold BertSelfAttention.rawScores
    rw [if_pos hl, if_pos hl]
  · intro regV
    show (if l < START_SHARE_LAYER then regV else _) = regV
    rw [if_pos hl]
  · intro MODIFY mask regT
    show (if START_SHARE_LAYER ≤ l then _ else regT) = regT
    rw [if_neg (Nat.not_le.mpr hl)]

theorem unshared_layers_standard_attention_witness :
    0 < START_SHARE_LAYER ∧ unsharedAttnClaim 0 clipPW bertPW skW hVW hTW :=
  ⟨by decide, unshared_layers_standard_attention 0 (by decide) clipPW bertPW skW hVW hTW⟩

/-- C6: `AttentionReg.change_ShareKey` swaps the `ShareKey` triple
`(key, text_bias, vision_bias)` with the `AttentionReg` triple
`(old_key, old_text_bias, old_vision_bias)` (all other fields kept), so
applying it twice restores both states: it is an involution. -/
theorem change_ShareKey_swap_involution {M K TB VB RV RT : Type}
    (sk : ShareKeyVars K TB VB) (reg : AttentionRegState M K TB VB RV RT) :
    AttentionReg.change_ShareKey sk reg =
      (⟨reg.old_key, reg.old_text_bias, reg.old_vision_bias⟩,
       ⟨reg.old_model, sk.key, sk.text_bias, sk.vision_bias,
        reg.attention_text_list, reg.attention_vision_list⟩) ∧
    AttentionReg.change_ShareKey (AttentionReg.change_ShareKey sk reg).1
        (AttentionReg.change_ShareKey sk reg).2 = (sk, reg) := by
  constructor
  · rfl
  · cases sk
    cases reg
    rfl

/-- C8: the mode selector of `UnimoModel.forward` is hard-coded to
`'cat'`, so every completed call returns the 3-tuple of the `'cat'`
branch, and the result does not depend on the `text_classifier` or
`vision_classifier` of the unreachable `'sep'` branch. -/
theorem unimoModel_forward_always_cat {T V L C : Type}
    (text_classifier : T → L) (vision_classifier : V → L)
    (fusion : T → V → T) (cat_cls : T → T → C)
    (text_output : T) (vision_output : V) :
    UnimoModel.mode = "cat" ∧
    UnimoModel.forwardTail text_classifier vision_classifier fusion cat_cls
        text_output vision_output =
      Except.ok (UnimoOutput.cat text_output (fusion text_output vision_output)
        (cat_cls (fusion text_output vision_output) text_output)) ∧
    (∀ (tc2 : T → L) (vc2 : V → L),
      UnimoModel.forwardTail text_classifier vision_classifier fusion cat_cls
          text_output vision_output =
        UnimoModel.forwardTail tc2 vc2 fusion cat_cls
          text_output vision_output) := by
  refine ⟨rfl, rfl, fun _ _ => rfl⟩

/-- C9: `get_head_mask` ignores its `head_mask` argument entirely and
returns `[None] * num_hidden_layers` for every input. -/
theorem get_head_mask_ignores_argument {α : Type} (head_mask : Option α)
    (num_hidden_layers : ℕ) (is_attention_chunked : Bool) :
    get_head_mask head_mask num_hidden_layers is_attention_chunked =
        List.replicate num_hidden_layers none ∧
    ∀ (hm2 : Option α) (c2 : Bool),
      get_head_mask head_mask num_hidden_layers is_attention_chunked =
        get_head_mask hm2 num_hidden_layers c2 :=
  ⟨rfl, fun _ _ => rfl⟩

/-- C10: `get_extended_attention_mask` raises `ValueError` exactly when
the mask dimension is neither 2 nor 3; otherwise it returns a
4-dimensional tensor, broadcastable over heads, in which mask entry 1
becomes 0 and mask entry 0 becomes -10000. -/
theorem extended_attention_mask_spec (m : STensor) : extendedMaskClaim m := by
  unfold extendedMaskClaim
  by_cases h3 : m.dim = 3
  · refine ⟨⟨?_, ?_⟩, ?_⟩
    · rintro ⟨s, hs⟩
      unfold get_extended_attention_mask at hs
      rw [if_pos h3] at hs
      exact absurd hs (by simp)
    · rintro ⟨_, h3x⟩
      exact absurd h3 h3x
    · intro t ht
      unfold get_extended_attention_mask at ht
      rw [if_pos h3] at ht
      injection ht with ht
      subst ht
      refine ⟨rfl, rfl, ?_, ?_⟩
      · intro h2
        rw [h2] at h3
        exact absurd h3 (by decide)
      · intro _ b x i j
        constructor
        · intro h1
          show (1 - m.entry [b, i, j]) * (-10000) = 0
          rw [h1]
          ring
        · intro h0
          show (1 - m.entry [b, i, j]) * (-10000) = -10000
          rw [h0]
          ring
  · by_cases h2 : m.dim = 2
    · refine ⟨⟨?_, ?_⟩, ?_⟩
      · rintro ⟨s, hs⟩
        unfold get_extended_attention_mask at hs
        rw [if_neg h3, if_pos h2] at hs
        exact absurd hs (by simp)
      · rintro ⟨h2x, _⟩
        exact absurd h2 h2x
      · intro t ht
        unfold get_extended_attention_mask at ht
        rw [if_neg h3, if_pos h2] at ht
        injection ht with ht
        subst ht
        refine ⟨rfl, rfl, ?_, ?_⟩
        · intro _ b x y j
          constructor
          · intro h1
            show (1 - m.entry [b, j]) * (-10000) = 0
            rw [h1]
            ring
          · intro h0
            show (1 - m.entry [b, j]) * (-10000) = -10000
            rw [h0]
            ring
        · intro h3x
          rw [h3x] at h2
          exact absurd h2 (by decide)
    · refine ⟨⟨?_, ?_⟩, ?_⟩
      · intro _
        exact ⟨h2, h3⟩
      · intro _
        refine ⟨"Wrong shape for input_ids or attention_mask", ?_⟩
        unfold get_extended_attention_mask
        rw [if_neg h3, if_neg h2]
      · intro t ht
        unfold get_extended_attention_mask at ht
        rw [if_neg h3, if_neg h2] at ht
        exact absurd ht (by simp)

/-- C3: for equal-length lists of equal-shaped attention tensors,
`AttentionReg.cal_loss` is a nonnegative scalar (mean over layers of the
per-layer losses), and it is 0 whenever, for every layer pair, the
pooled old attention is pointwise at most the pooled new attention: only
positive drift of old over new is penalized, through `relu(a - b)`. -/
theorem cal_loss_nonneg_and_zero {bs n : ℕ}
    (old_attention_list attention_list : List (Fin bs → Fin n → Fin n → ℝ))
    (hlen : old_attention_list.length = attention_list.length)
    (merge_type : MergeType) :
    calLossClaim old_attention_list attention_list merge_type := by
  constructor
  · unfold AttentionReg.cal_loss
    apply div_nonneg
    · apply List.sum_nonneg
      intro x hx
      simp only [List.mem_map] at hx
      obtain ⟨pr, hpr, rfl⟩ := hx
      unfold layerLoss
      apply div_nonneg (Real.sqrt_nonneg _)
      norm_num
    · exact Nat.cast_nonneg _
  · intro hle
    unfold AttentionReg.cal_loss
    have hz : ∀ x ∈ (old_attention_list.zip attention_list).map
        (fun pr => layerLoss merge_type pr.1 pr.2), x = 0 := by
      intro x hx
      simp only [List.mem_map] at hx
      obtain ⟨pr, hpr, rfl⟩ := hx
      have hfun : (fun a b => relu (poolAttention merge_type pr.1 a b -
          poolAttention merge_type pr.2 a b)) =
          fun (_ : Fin bs) (_ : Fin n) => (0 : ℝ) := by
        funext a b
        show max _ 0 = 0
        exact max_eq_right (sub_nonpos.mpr (hle pr hpr a b))
      unfold layerLoss
      rw [hfun]
      have hnorm : F.normalize (fun (_ : Fin bs) (_ : Fin n) => (0 : ℝ)) =
          fun (_ : Fin bs) (_ : Fin n) => (0 : ℝ) := by
        funext a b
        simp [F.normalize]
      rw [hnorm]
      have hfro : frobenius_norm (fun (_ : Fin bs) (_ : Fin n) => (0 : ℝ)) = 0 := by
        simp [frobenius_norm]
      rw [hfro, zero_div]
    rw [List.sum_eq_zero hz, zero_div]

theorem cal_loss_nonneg_and_zero_witness :
    [lossTensorW].length = [lossTensorW].length ∧
      calLossClaim [lossTensorW] [lossTensorW] MergeType.height :=
  ⟨rfl, cal_loss_nonneg_and_zero [lossTensorW] [lossTensorW] rfl MergeType.height⟩

theorem encStep_vision {B H D VL TL : ℕ} {M K TB VB : Type}
    (enc : UnimoEncoderM B H D VL TL) (sk : ShareKeyState H D VL TL)
    (MODIFY : Bool) (mask : Option (Fin B → Fin TL → ℚ))
    (st : EncLoopState B H D VL TL M K TB VB) (idx : ℕ) :
    (UnimoEncoder.step enc sk MODIFY mask st idx).vision_hidden_states =
      (enc.vision_layers idx).hiddenStep sk idx st.vision_hidden_states := rfl

theorem encStep_text {B H D VL TL : ℕ} {M K TB VB : Type}
    (enc : UnimoEncoderM B H D VL TL) (sk : ShareKeyState H D VL TL)
    (MODIFY : Bool) (mask : Option (Fin B → Fin TL → ℚ))
    (st : EncLoopState B H D VL TL M K TB VB) (idx : ℕ) :
    (UnimoEncoder.step enc sk MODIFY mask st idx).text_hidden_states =
      (enc.text_layer idx).hiddenStep sk MODIFY idx st.text_hidden_states mask := rfl

theorem encStep_trace {B H D VL TL : ℕ} {M K TB VB : Type}
    (enc : UnimoEncoderM B H D VL TL) (sk : ShareKeyState H D VL TL)
    (MODIFY : Bool) (mask : Option (Fin B → Fin TL → ℚ))
    (st : EncLoopState B H D VL TL M K TB VB) (idx : ℕ) :
    (UnimoEncoder.step enc sk MODIFY mask st idx).trace =
      st.trace ++ [LayerEvent.vision idx, LayerEvent.text idx] := rfl

theorem encStep_old_model {B H D VL TL : ℕ} {M K TB VB : Type}
    (enc : UnimoEncoderM B H D VL TL) (sk : ShareKeyState H D VL TL)
    (MODIFY : Bool) (mask : Option (Fin B → Fin TL → ℚ))
    (st : EncLoopState B H D VL TL M K TB VB) (idx : ℕ) :
    (UnimoEncoder.step enc sk MODIFY mask st idx).reg.old_model =
      st.reg.old_model := rfl

theorem encStep_old_key {B H D VL TL : ℕ} {M K TB VB : Type}
    (enc : UnimoEncoderM B H D VL TL) (sk : ShareKeyState H D VL TL)
    (MODIFY : Bool) (mask : Option (Fin B → Fin TL → ℚ))
    (st : EncLoopState B H D VL TL M K TB VB) (idx : ℕ) :
    (UnimoEncoder.step enc sk MODIFY mask st idx).reg.old_key =
      st.reg.old_key := rfl

theorem encStep_old_text_bias {B H D VL TL : ℕ} {M K TB VB : Type}
    (enc : UnimoEncoderM B H D VL TL) (sk : ShareKeyState H D VL TL)
    (MODIFY : Bool) (mask : Option (Fin B → Fin TL → ℚ))
    (st : EncLoopState B H D VL TL M K TB VB) (idx : ℕ) :
    (UnimoEncoder.step enc sk MODIFY mask st idx).reg.old_text_bias =
      st.reg.old_text_bias := rfl

theorem encStep_old_vision_bias {B H D VL TL : ℕ} {M K TB VB : Type}
    (enc : UnimoEncoderM B H D VL TL) (sk : ShareKeyState H D VL TL)
    (MODIFY : Bool) (mask : Option (Fin B → Fin TL → ℚ))
    (st : EncLoopState B H D VL TL M K TB VB) (idx : ℕ) :
    (UnimoEncoder.step enc sk MODIFY mask st idx).reg.old_vision_bias =
      st.reg.old_vision_bias := rfl

theorem encStep_regV {B H D VL TL : ℕ} {M K TB VB : Type}
    (enc : UnimoEncoderM B H D VL TL) (sk : ShareKeyState H D VL TL)
    (MODIFY : Bool) (mask : Option (Fin B → Fin TL → ℚ))
    (st : EncLoopState B H D VL TL M K TB VB) (idx : ℕ) :
    (UnimoEncoder.step enc sk MODIFY mask st idx).reg.attention_vision_list =
      if idx < START_SHARE_LAYER then st.reg.attention_vision_list
      else st.reg.attention_vision_list ++
        [CLIPAttention.attnWeights (enc.vision_layers idx).attn sk idx
          ((enc.vision_layers idx).layer_norm1 st.vision_hidden_states)] := rfl

theorem encStep_regT {B H D VL TL : ℕ} {M K TB VB : Type}
    (enc : UnimoEncoderM B H D VL TL) (sk : ShareKeyState H D VL TL)
    (MODIFY : Bool) (mask : Option (Fin B → Fin TL → ℚ))
    (st : EncLoopState B H D VL TL M K TB VB) (idx : ℕ) :
    (UnimoEncoder.step enc sk MODIFY mask st idx).reg.attention_text_list =
      if START_SHARE_LAYER ≤ idx then st.reg.attention_text_list ++
        [BertSelfAttention.regEntry (enc.text_layer idx).attn sk MODIFY idx
          st.text_hidden_states mask]
      else st.reg.attention_text_list := rfl

theorem loop_succ {B H D VL TL : ℕ} {M K TB VB : Type}
    (enc : UnimoEncoderM B H D VL TL) (sk : ShareKeyState H D VL TL)
    (MODIFY : Bool) (mask : Option (Fin B → Fin TL → ℚ))
    (v0 : Fin B → Fin VL → Fin (H * D) → ℚ)
    (t0 : Fin B → Fin TL → Fin (H * D) → ℚ)
    (reg : AttentionRegState M K TB VB
      (Fin (B * H) → Fin VL → Fin VL → ℚ)
      (Fin B → Fin H → Fin TL → Fin TL → ℚ)) (k : ℕ) :
    UnimoEncoder.loop enc sk MODIFY mask v0 t0 reg (k + 1) =
      UnimoEncoder.step enc sk MODIFY mask
        (UnimoEncoder.loop enc sk MODIFY mask v0 t0 reg k) k := by
  unfold UnimoEncoder.loop
  rw [List.range_succ, List.foldl_append, List.foldl_cons, List.foldl_nil]

theorem visionStateAt_succ {B H D VL TL : ℕ}
    (enc : UnimoEncoderM B H D VL TL) (sk : ShareKeyState H D VL TL)
    (v0 : Fin B → Fin VL → Fin (H * D) → ℚ) (k : ℕ) :
    UnimoEncoder.visionStateAt enc sk v0 (k + 1) =
      (enc.vision_layers k).hiddenStep sk k
        (UnimoEncoder.visionStateAt enc sk v0 k) := by
  unfold UnimoEncoder.visionStateAt
  rw [List.range_succ, List.foldl_append, List.foldl_cons, List.foldl_nil]

theorem textStateAt_succ {B H D VL TL : ℕ}
    (enc : UnimoEncoderM B H D VL TL) (sk : ShareKeyState H D VL TL)
    (MODIFY : Bool) (mask : Option (Fin B → Fin TL → ℚ))
    (t0 : Fin B → Fin TL → Fin (H * D) → ℚ) (k : ℕ) :
    UnimoEncoder.textStateAt enc sk MODIFY mask t0 (k + 1) =
      (enc.text_layer k).hiddenStep sk MODIFY k
        (UnimoEncoder.textStateAt enc sk MODIFY mask t0 k) mask := by
  unfold UnimoEncoder.textStateAt
  rw [List.range_succ, List.foldl_append, List.foldl_cons, List.foldl_nil]

theorem traceSpec_succ (k : ℕ) :
    UnimoEncoder.traceSpec (k + 1) =
      UnimoEncoder.traceSpec k ++ [LayerEvent.vision k, LayerEvent.text k] := by
  unfold UnimoEncoder.traceSpec
  rw [List.range_succ, List.flatMap_append]
  rfl

theorem loop_vision {B H D VL TL : ℕ} {M K TB VB : Type}
    (enc : UnimoEncoderM B H D VL TL) (sk : ShareKeyState H D VL TL)
    (MODIFY : Bool) (mask : Option (Fin B → Fin TL → ℚ))
    (v0 : Fin B → Fin VL → Fin (H * D) → ℚ)
    (t0 : Fin B → Fin TL → Fin (H * D) → ℚ)
    (reg : AttentionRegState M K TB VB
      (Fin (B * H) → Fin VL → Fin VL → ℚ)
      (Fin B → Fin H → Fin TL → Fin TL → ℚ)) (k : ℕ) :
    (UnimoEncoder.loop enc sk MODIFY mask v0 t0 reg k).vision_hidden_states =
      UnimoEncoder.visionStateAt enc sk v0 k := by
  induction k with
  | zero => rfl
  | succ j ih =>
    rw [loop_succ, encStep_vision, ih, visionStateAt_succ]

theorem loop_text {B H D VL TL : ℕ} {M K TB VB : Type}
    (enc : UnimoEncoderM B H D VL TL) (sk : ShareKeyState H D VL TL)
    (MODIFY : Bool) (mask : Option (Fin B → Fin TL → ℚ))
    (v0 : Fin B → Fin VL → Fin (H * D) → ℚ)
    (t0 : Fin B → Fin TL → Fin (H * D) → ℚ)
    (reg : AttentionRegState M K TB VB
      (Fin (B * H) → Fin VL → Fin VL → ℚ)
      (Fin B → Fin H → Fin TL → Fin TL → ℚ)) (k : ℕ) :
    (UnimoEncoder.loop enc sk MODIFY mask v0 t0 reg k).text_hidden_states =
      UnimoEncoder.textStateAt enc sk MODIFY mask t0 k := by
  induction k with
  | zero => rfl
  | succ j ih =>
    rw [loop_succ, encStep_text, ih, textStateAt_succ]

theorem loop_trace {B H D VL TL : ℕ} {M K TB VB : Type}
    (enc : UnimoEncoderM B H D VL TL) (sk : ShareKeyState H D VL TL)
    (MODIFY : Bool) (mask : Option (Fin B → Fin TL → ℚ))
    (v0 : Fin B → Fin VL → Fin (H * D) → ℚ)
    (t0 : Fin B → Fin TL → Fin (H * D) → ℚ)
    (reg : AttentionRegState M K TB VB
      (Fin (B * H) → Fin VL → Fin VL → ℚ)
      (Fin B → Fin H → Fin TL → Fin TL → ℚ)) (k : ℕ) :
    (UnimoEncoder.loop enc sk MODIFY mask v0 t0 reg k).trace =
      UnimoEncoder.traceSpec k := by
  induction k with
  | zero => rfl
  | succ j ih =>
    rw [loop_succ, encStep_trace, ih, traceSpec_succ]

theorem loop_old_model {B H D VL TL : ℕ} {M K TB VB : Type}
    (enc : UnimoEncoderM B H D VL TL) (sk : ShareKeyState H D VL TL)
    (MODIFY : Bool) (mask : Option (Fin B → Fin TL → ℚ))
    (v0 : Fin B → Fin VL → Fin (H * D) → ℚ)
    (t0 : Fin B → Fin TL → Fin (H * D) → ℚ)
    (reg : AttentionRegState M K TB VB
      (Fin (B * H) → Fin VL → Fin VL → ℚ)
      (Fin B → Fin H → Fin TL → Fin TL → ℚ)) (k : ℕ) :
    (UnimoEncoder.loop enc sk MODIFY mask v0 t0 reg k).reg.old_model =
      reg.old_model := by
  induction k with
  | zero => rfl
  | succ j ih => rw [loop_succ, encStep_old_model, ih]

theorem loop_old_key {B H D VL TL : ℕ} {M K TB VB : Type}
    (enc : UnimoEncoderM B H D VL TL) (sk : ShareKeyState H D VL TL)
    (MODIFY : Bool) (mask : Option (Fin B → Fin TL → ℚ))
    (v0 : Fin B → Fin VL → Fin (H * D) → ℚ)
    (t0 : Fin B → Fin TL → Fin (H * D) → ℚ)
    (reg : AttentionRegState M K TB VB
      (Fin (B * H) → Fin VL → Fin VL → ℚ)
      (Fin B → Fin H → Fin TL → Fin TL → ℚ)) (k : ℕ) :
    (UnimoEncoder.loop enc sk MODIFY mask v0 t0 reg k).reg.old_key =
      reg.old_key := by
  induction k with
  | zero => rfl
  | succ j ih => rw [loop_succ, encStep_old_key, ih]

theorem loop_old_text_bias {B H D VL TL : ℕ} {M K TB VB : Type}
    (enc : UnimoEncoderM B H D VL TL) (sk : ShareKeyState H D VL TL)
    (MODIFY : Bool) (mask : Option (Fin B → Fin TL → ℚ))
    (v0 : Fin B → Fin VL → Fin (H * D) → ℚ)
    (t0 : Fin B → Fin TL → Fin (H * D) → ℚ)
    (reg : AttentionRegState M K TB VB
      (Fin (B * H) → Fin VL → Fin VL → ℚ)
      (Fin B → Fin H → Fin TL → Fin TL → ℚ)) (k : ℕ) :
    (UnimoEncoder.loop enc sk MODIFY mask v0 t0 reg k).reg.old_text_bias =
      reg.old_text_bias := by
  induction k with
  | zero => rfl
  | succ j ih => rw [loop_succ, encStep_old_text_bias, ih]

theorem loop_old_vision_bias {B H D VL TL : ℕ} {M K TB VB : Type}
    (enc : UnimoEncoderM B H D VL TL) (sk : ShareKeyState H D VL TL)
    (MODIFY : Bool) (mask : Option (Fin B → Fin TL → ℚ))
    (v0 : Fin B → Fin VL → Fin (H * D) → ℚ)
    (t0 : Fin B → Fin TL → Fin (H * D) → ℚ)
    (reg : AttentionRegState M K TB VB
      (Fin (B * H) → Fin VL → Fin VL → ℚ)
      (Fin B → Fin H → Fin TL → Fin TL → ℚ)) (k : ℕ) :
    (UnimoEncoder.loop enc sk MODIFY mask v0 t0 reg k).reg.old_vision_bias =
      reg.old_vision_bias := by
  induction k with
  | zero => rfl
  | succ j ih => rw [loop_succ, encStep_old_vision_bias, ih]

theorem loop_regV {B H D VL TL : ℕ} {M K TB VB : Type}
    (enc : UnimoEncoderM B H D VL TL) (sk : ShareKeyState H D VL TL)
    (MODIFY : Bool) (mask : Option (Fin B → Fin TL → ℚ))
    (v0 : Fin B → Fin VL → Fin (H * D) → ℚ)
    (t0 : Fin B → Fin TL → Fin (H * D) → ℚ)
    (reg : AttentionRegState M K TB VB
      (Fin (B * H) → Fin VL → Fin VL → ℚ)
      (Fin B → Fin H → Fin TL → Fin TL → ℚ)) (k : ℕ) :
    (UnimoEncoder.loop enc sk MODIFY mask v0 t0 reg k).reg.attention_vision_list =
      reg.attention_vision_list ++
        ((List.range k).filter (fun i => decide (START_SHARE_LAYER ≤ i))).map
          (UnimoEncoder.visionEntryAt enc sk v0) := by
  induction k with
  | zero => simp [UnimoEncoder.loop]
  | succ j ih =>
    rw [loop_succ, encStep_regV, ih, loop_vision,
      List.range_succ, List.filter_append]
    by_cases hj : j < START_SHARE_LAYER
    · rw [if_pos hj]
      have hf : List.filter (fun i => decide (START_SHARE_LAYER ≤ i)) [j] = [] := by
        simp [Nat.not_le.mpr hj]
      rw [hf, List.append_nil]
    · rw [if_neg hj]
      have h9 : START_SHARE_LAYER ≤ j := Nat.not_lt.mp hj
      have hf : List.filter (fun i => decide (START_SHARE_LAYER ≤ i)) [j] = [j] := by
        simp [h9]
      rw [hf, List.map_append, ← List.append_assoc]
      rfl

theorem loop_regT {B H D VL TL : ℕ} {M K TB VB : Type}
    (enc : UnimoEncoderM B H D VL TL) (sk : ShareKeyState H D VL TL)
    (MODIFY : Bool) (mask : Option (Fin B → Fin TL → ℚ))
    (v0 : Fin B → Fin VL → Fin (H * D) → ℚ)
    (t0 : Fin B → Fin TL → Fin (H * D) → ℚ)
    (reg : AttentionRegState M K TB VB
      (Fin (B * H) → Fin VL → Fin VL → ℚ)
      (Fin B → Fin H → Fin TL → Fin TL → ℚ)) (k : ℕ) :
    (UnimoEncoder.loop enc sk MODIFY mask v0 t0 reg k).reg.attention_text_list =
      reg.attention_text_list ++
        ((List.range k).filter (fun i => decide (START_SHARE_LAYER ≤ i))).map
          (UnimoEncoder.textEntryAt enc sk MODIFY mask t0) := by
  induction k with
  | zero => simp [UnimoEncoder.loop]
  | succ j ih =>
    rw [loop_succ, encStep_regT, ih, loop_text,
      List.range_succ, List.filter_append]
    by_cases hj : START_SHARE_LAYER ≤ j
    · rw [if_pos hj]
      have hf : List.filter (fun i => decide (START_SHARE_LAYER ≤ i)) [j] = [j] := by
        simp [hj]
      rw [hf, List.map_append, ← List.append_assoc]
      rfl
    · rw [if_neg hj]
      have hf : List.filter (fun i => decide (START_SHARE_LAYER ≤ i)) [j] = [] := by
        simp [hj]
      rw [hf, List.append_nil]

theorem filter_le_range_eq_range' (s k : ℕ) (h : s ≤ k) :
    (List.range k).filter (fun i => decide (s ≤ i)) = List.range' s (k - s) := by
  induction k with
  | zero =>
    have hs : s = 0 := Nat.le_zero.mp h
    subst hs
    simp
  | succ j ih =>
    rcases Nat.lt_or_ge j s with hjs | hsj
    · have hs : s = j + 1 := Nat.le_antisymm h hjs
      subst hs
      rw [Nat.sub_self, List.range'_zero]
      refine List.filter_eq_nil_iff.mpr ?_
      intro a ha
      have ha2 : a < j + 1 := List.mem_range.mp ha
      simp only [decide_eq_true_eq]
      omega
    · rw [List.range_succ, List.filter_append, ih hsj]
      have hf : List.filter (fun i => decide (s ≤ i)) [j] = [j] := by
        simp [hsj]
      rw [hf]
      have h2 : j + 1 - s = (j - s) + 1 := by omega
      rw [h2, List.range'_1_concat]
      have h3 : s + (j - s) = j := by omega
      rw [h3]

/-- C4: under the asserted precondition that the vision and text configs
have the same `num_hidden_layers`, `UnimoEncoder.forward` alternates the
two streams strictly: for each index, the vision layer is applied first
and then the text layer, and each stream's output feeds that same
stream's next layer (the final states are the folds of the per-stream
layer functions). -/
theorem unimoEncoder_alternates {B H D VL TL : ℕ} {M K TB VB : Type}
    (enc : UnimoEncoderM B H D VL TL)
    (h : enc.vision_num_layers = enc.text_num_layers)
    (sk : ShareKeyState H D VL TL) (MODIFY : Bool)
    (mask : Option (Fin B → Fin TL → ℚ))
    (v0 : Fin B → Fin VL → Fin (H * D) → ℚ)
    (t0 : Fin B → Fin TL → Fin (H * D) → ℚ)
    (reg : AttentionRegState M K TB VB
      (Fin (B * H) → Fin VL → Fin VL → ℚ)
      (Fin B → Fin H → Fin TL → Fin TL → ℚ)) :
    encoderAlternationClaim enc sk MODIFY mask v0 t0 reg := by
  refine ⟨(UnimoEncoder.loop enc sk MODIFY mask v0 t0 reg
    enc.vision_num_layers).reg, ?_⟩
  unfold UnimoEncoder.forward
  rw [if_pos h]
  simp only [loop_vision, loop_text, loop_trace]

theorem unimoEncoder_alternates_witness :
    encW.vision_num_layers = encW.text_num_layers ∧
      encoderAlternationClaim encW skW false none hVW hTW regW :=
  ⟨rfl, unimoEncoder_alternates encW rfl skW false none hVW hTW regW⟩

/-- C7: a forward pass of `UnimoEncoder` appends exactly
`num_hidden_layers - START_SHARE_LAYER` entries (3 in the 12-layer
configuration) to each of `AttentionReg.attention_vision_list` and
`AttentionReg.attention_text_list`, one per shared layer in increasing
layer order, and touches no other `AttentionReg` field, while
`AttentionReg.clear_attention_list` resets exactly the two lists. -/
theorem unimoEncoder_shared_appends {B H D VL TL : ℕ} {M K TB VB : Type}
    (enc : UnimoEncoderM B H D VL TL)
    (h : enc.vision_num_layers = enc.text_num_layers)
    (h9 : START_SHARE_LAYER ≤ enc.vision_num_layers)
    (sk : ShareKeyState H D VL TL) (MODIFY : Bool)
    (mask : Option (Fin B → Fin TL → ℚ))
    (v0 : Fin B → Fin VL → Fin (H * D) → ℚ)
    (t0 : Fin B → Fin TL → Fin (H * D) → ℚ)
    (reg : AttentionRegState M K TB VB
      (Fin (B * H) → Fin VL → Fin VL → ℚ)
      (Fin B → Fin H → Fin TL → Fin TL → ℚ)) :
    encoderAppendClaim enc sk MODIFY mask v0 t0 reg := by
  constructor
  · refine ⟨(UnimoEncoder.loop enc sk MODIFY mask v0 t0 reg
        enc.vision_num_layers).text_hidden_states,
      (UnimoEncoder.loop enc sk MODIFY mask v0 t0 reg
        enc.vision_num_layers).vision_hidden_states,
      (UnimoEncoder.loop enc sk MODIFY mask v0 t0 reg
        enc.vision_num_layers).reg,
      (UnimoEncoder.loop enc sk MODIFY mask v0 t0 reg
        enc.vision_num_layers).trace, ?_, ?_, ?_, ?_, ?_, ?_, ?_, ?_, ?_⟩
    · unfold UnimoEncoder.forward
      rw [if_pos h]
    · rw [loop_regV, filter_le_range_eq_range' _ _ h9]
    · rw [loop_regT, filter_le_range_eq_range' _ _ h9]
    · rw [loop_regV, filter_le_range_eq_range' _ _ h9,
        List.length_append, List.length_map, List.length_range']
    · rw [loop_regT, filter_le_range_eq_range' _ _ h9,
        List.length_append, List.length_map, List.length_range']
    · exact loop_old_model enc sk MODIFY mask v0 t0 reg _
    · exact loop_old_key enc sk MODIFY mask v0 t0 reg _
    · exact loop_old_text_bias enc sk MODIFY mask v0 t0 reg _
    · exact loop_old_vision_bias enc sk MODIFY mask v0 t0 reg _
  · intro r
    exact ⟨rfl, rfl, rfl, rfl, rfl, rfl⟩

theorem unimoEncoder_shared_appends_witness :
    (encW.vision_num_layers = encW.text_num_layers ∧
      START_SHARE_LAYER ≤ encW.vision_num_layers) ∧
      encoderAppendClaim encW skW false none hVW hTW regW :=
  ⟨⟨rfl, by decide⟩,
    unimoEncoder_shared_appends encW rfl (by decide) skW false none hVW hTW regW⟩
